import Mathlib

/-!
Verification of the resource-and-rate coordination layer of the serp-test
repository: the proxy-rotation scheduler (`src/proxyManager.ts`), the
pooled-session (tab) manager (`src/selenium/driverManager.ts`) and the
per-job retry orchestrator (`src/seleniumRankTracker.ts`).

Times are modelled as `Int` (JavaScript millisecond timestamps obtained from
`Date.now()`; `now - 60000` may be negative, so `Nat` truncation would be
unfaithful).  Counters are `Nat`.  JavaScript `Map`s keyed by strings are
modelled as insertion-ordered association lists.
-/

namespace SerpTest

/-- A proxy entry, from the `Proxy` interface of `src/proxyManager.ts`.
Connection credentials are carried but never inspected by the scheduler. -/
structure Proxy where
  id : String
  host : String
  port : Int
  username : String
  password : String
  location : Option String
  isActive : Bool
deriving Repr, DecidableEq

/-- Per-proxy usage record, from the `ProxyUsage` interface:
`{ proxy, lastUsed, usageCount, cooldownUntil, consecutiveDetections }`. -/
structure ProxyUsage where
  proxy : Proxy
  lastUsed : Int
  usageCount : Nat
  cooldownUntil : Int
  consecutiveDetections : Nat
deriving Repr, DecidableEq

inductive RotationStrategy where
  | roundRobin
  | leastUsed
deriving Repr, DecidableEq

/-- `ProxyManagerOptions` of `src/proxyManager.ts` (defaults:
`requestsPerMinute = 2`, `cooldownPeriod = 300000`, round-robin). -/
structure ProxyManagerOptions where
  requestsPerMinute : Nat
  cooldownPeriod : Int
  rotationStrategy : RotationStrategy
deriving Repr, DecidableEq

def defaultOptions : ProxyManagerOptions :=
  { requestsPerMinute := 2, cooldownPeriod := 300000,
    rotationStrategy := RotationStrategy.roundRobin }

/-- The mutable state of a `ProxyManager` instance: the `proxies` array, the
`proxyUsage` map (insertion-ordered association list) and the round-robin
cursor `currentIndex`. -/
structure ProxyManager where
  proxies : List Proxy
  proxyUsage : List (String × ProxyUsage)
  currentIndex : Nat
  options : ProxyManagerOptions
deriving Repr, DecidableEq

/-- `Map.get` on the usage map. -/
def mapLookup (m : List (String × ProxyUsage)) (i : String) : Option ProxyUsage :=
  (m.find? (fun e => e.1 = i)).map (fun e => e.2)

/-- `Map.set` on a key already present: replace in place, preserving order. -/
def mapUpdate (m : List (String × ProxyUsage)) (i : String) (u : ProxyUsage) :
    List (String × ProxyUsage) :=
  m.map (fun e => if e.1 = i then (i, u) else e)

/-- `Map.set` as used by `addProxy`: replace if the key exists, else append. -/
def mapSet (m : List (String × ProxyUsage)) (i : String) (u : ProxyUsage) :
    List (String × ProxyUsage) :=
  if (m.find? (fun e => e.1 = i)).isSome then mapUpdate m i u else m ++ [(i, u)]

/-- `ProxyManager.addProxy`: push onto `proxies` and register zeroed usage. -/
def addProxy (pm : ProxyManager) (p : Proxy) : ProxyManager :=
  { pm with
    proxies := pm.proxies ++ [p],
    proxyUsage := mapSet pm.proxyUsage p.id
      { proxy := p, lastUsed := 0, usageCount := 0, cooldownUntil := 0,
        consecutiveDetections := 0 } }

/-- The per-proxy eligibility test inside `getNextProxy`'s filter
(`src/proxyManager.ts` lines 130-142), including its side effects on the
usage record: a proxy still in cooldown is rejected; a proxy inside the
one-minute window that has reached `requestsPerMinute` is rejected and its
`cooldownUntil` is set to `now + cooldownPeriod`; a proxy whose window has
elapsed has `usageCount` reset to 0 and is accepted. -/
def checkUsage (opts : ProxyManagerOptions) (now : Int) (u : ProxyUsage) :
    Bool × ProxyUsage :=
  if now < u.cooldownUntil then (false, u)
  else if now - 60000 < u.lastUsed then
    if opts.requestsPerMinute ≤ u.usageCount then
      (false, { u with cooldownUntil := now + opts.cooldownPeriod })
    else (true, u)
  else (true, { u with usageCount := 0 })

/-- The `this.proxies.filter(...)` pass of `getNextProxy`: walks `proxies` in
order, threading the usage-map mutations performed by the predicate, and
returns the available proxies together with the updated map.  A proxy with no
usage record passes the filter unchanged (`if (!usage) return true`). -/
def filterAvailable (opts : ProxyManagerOptions) (now : Int) :
    List Proxy → List (String × ProxyUsage) → List Proxy × List (String × ProxyUsage)
  | [], m => ([], m)
  | p :: rest, m =>
    if p.isActive then
      match mapLookup m p.id with
      | none =>
        let r := filterAvailable opts now rest m
        (p :: r.1, r.2)
      | some u =>
        let cu := checkUsage opts now u
        let r := filterAvailable opts now rest (mapUpdate m p.id cu.2)
        (if cu.1 then p :: r.1 else r.1, r.2)
    else
      filterAvailable opts now rest m

/-- The `nextAvailableIn` computation of `getNextProxy` when no proxy is
available: the minimum positive `cooldownUntil - now` over active proxies'
usage records, or `null` if there is none. -/
def minPositiveCooldown (m : List (String × ProxyUsage)) (now : Int) : Option Int :=
  m.foldl
    (fun acc e =>
      if e.2.proxy.isActive then
        let t := e.2.cooldownUntil - now
        if 0 < t then
          match acc with
          | none => some t
          | some b => if t < b then some t else acc
        else acc
      else acc)
    none

/-- The round-robin selection loop of `getNextProxy`: starting from the
cursor, advance modulo `proxies.length` until a proxy whose id occurs among
the available ids is hit, for at most `proxies.length` steps (the do-while
`attempts` bound).  Returns the selected proxy and the new cursor. -/
def roundRobinPick (proxies : List Proxy) (availIds : List String) :
    Nat → Nat → Option (Proxy × Nat)
  | _, 0 => none
  | idx, Nat.succ fuel =>
    match proxies.get? ((idx + 1) % proxies.length) with
    | some p =>
      if availIds.contains p.id then some (p, (idx + 1) % proxies.length)
      else roundRobinPick proxies availIds ((idx + 1) % proxies.length) fuel
    | none => roundRobinPick proxies availIds ((idx + 1) % proxies.length) fuel

/-- The `reduce` callback of the least-used selection: keep `current` when
its stored usage count is strictly smaller than `least`'s. -/
def leastComparator (m : List (String × ProxyUsage)) (least current : Proxy) : Proxy :=
  if ((mapLookup m current.id).map (fun u => u.usageCount)).getD 0 <
      ((mapLookup m least.id).map (fun u => u.usageCount)).getD 0
  then current else least

/-- The least-used selection (`availableProxies.reduce(..., available[0])`):
fold over the whole available list with its head as the initial value. -/
def leastUsedPick (m : List (String × ProxyUsage)) :
    List Proxy → Option Proxy
  | [] => none
  | a0 :: rest => some ((a0 :: rest).foldl (leastComparator m) a0)

/-- The `ProxyResult` returned by `getNextProxy`. -/
structure ProxyResult where
  proxy : Option Proxy
  nextAvailableIn : Option Int
deriving Repr, DecidableEq

/-- The selection step of `getNextProxy` on a non-empty available list
`avail` with head `a0`: least-used reduce under that strategy (cursor
unchanged), otherwise the round-robin loop with fallback `available[0]`.
Returns the selected proxy and the updated cursor. -/
def selectProxy (pm : ProxyManager) (m1 : List (String × ProxyUsage))
    (avail : List Proxy) (a0 : Proxy) : Proxy × Nat :=
  if pm.options.rotationStrategy = RotationStrategy.leastUsed then
    ((leastUsedPick m1 avail).getD a0, pm.currentIndex)
  else
    match roundRobinPick pm.proxies (avail.map (fun p => p.id))
        pm.currentIndex pm.proxies.length with
    | some (p, i) => (p, i)
    | none => (a0, pm.currentIndex)

/-- The eager reservation of `getNextProxy` (`src/proxyManager.ts` lines
195-197): stamp `lastUsed = now` and increment `usageCount` on the selected
proxy's usage record (a missing record — impossible for proxies registered
by `addProxy` — leaves the map unchanged where the source would crash on
`get(...)!`). -/
def reserveProxy (m1 : List (String × ProxyUsage)) (i : String) (now : Int) :
    List (String × ProxyUsage) :=
  match mapLookup m1 i with
  | some u => mapUpdate m1 i { u with lastUsed := now, usageCount := u.usageCount + 1 }
  | none => m1

/-- The body of `getNextProxy` applied to the output `fa` of the
availability filter: report `{null, nextAvailableIn}` when no proxy is
available, otherwise select by the configured strategy, reserve the slot and
return the proxy. -/
def getNextProxyAux (pm : ProxyManager) (now : Int)
    (fa : List Proxy × List (String × ProxyUsage)) : ProxyResult × ProxyManager :=
  match fa.1 with
  | [] =>
    ({ proxy := none, nextAvailableIn := minPositiveCooldown fa.2 now },
     { pm with proxyUsage := fa.2 })
  | a0 :: rest =>
    ({ proxy := some (selectProxy pm fa.2 (a0 :: rest) a0).1, nextAvailableIn := none },
     { pm with
         proxyUsage := reserveProxy fa.2 (selectProxy pm fa.2 (a0 :: rest) a0).1.id now
         currentIndex := (selectProxy pm fa.2 (a0 :: rest) a0).2 })

/-- `ProxyManager.getNextProxy` (`src/proxyManager.ts` lines 122-200):
filter the proxies (with eligibility side effects), then select and reserve
(or report the wait hint). -/
def getNextProxy (pm : ProxyManager) (now : Int) : ProxyResult × ProxyManager :=
  getNextProxyAux pm now (filterAvailable pm.options now pm.proxies pm.proxyUsage)

/-- `ProxyManager.resetConsecutiveDetections`. -/
def resetConsecutiveDetections (pm : ProxyManager) (i : String) : ProxyManager :=
  match mapLookup pm.proxyUsage i with
  | none => pm
  | some u =>
    { pm with proxyUsage := mapUpdate pm.proxyUsage i ({ u with consecutiveDetections := 0 }) }

/-- `ProxyManager.markProxyUsed` (`src/proxyManager.ts` lines 206-213):
increments `usageCount`, sets `lastUsed = now`, then calls
`resetConsecutiveDetections`. -/
def markProxyUsed (pm : ProxyManager) (i : String) (now : Int) : ProxyManager :=
  match mapLookup pm.proxyUsage i with
  | none => pm
  | some u =>
    let u2 : ProxyUsage := { u with usageCount := u.usageCount + 1, lastUsed := now }
    resetConsecutiveDetections { pm with proxyUsage := mapUpdate pm.proxyUsage i u2 } i

/-- `ProxyManager.markProxyDetected` (`src/proxyManager.ts` lines 220-231):
increments `consecutiveDetections`; the penalty period is the custom cooldown
if supplied and truthy, else `options.cooldownPeriod`, multiplied by
`consecutiveDetections` once that counter reaches 2; sets
`cooldownUntil = now + period`. -/
def markProxyDetected (pm : ProxyManager) (i : String)
    (customCooldown : Option Int) (now : Int) : ProxyManager :=
  match mapLookup pm.proxyUsage i with
  | none => pm
  | some u =>
    let cd := u.consecutiveDetections + 1
    let basePeriod :=
      match customCooldown with
      | some c => if c = 0 then pm.options.cooldownPeriod else c
      | none => pm.options.cooldownPeriod
    let period := if 2 ≤ cd then basePeriod * (cd : Int) else basePeriod
    let u2 : ProxyUsage := { u with consecutiveDetections := cd, cooldownUntil := now + period }
    { pm with proxyUsage := mapUpdate pm.proxyUsage i u2 }

/-! ### Search-result rank computation (`SeleniumRankTracker.checkKeywordRank`) -/

/-- One parsed search result (`SearchResultsParser` output). -/
structure SearchResult where
  title : String
  url : String
deriving Repr, DecidableEq

/-- Substring test on character lists, used to model JavaScript
`String.prototype.includes`. -/
def charsContain (sub : List Char) : List Char → Bool
  | [] => sub.isEmpty
  | c :: rest => sub.isPrefixOf (c :: rest) || charsContain sub rest

/-- JavaScript `url.includes(domain)`. -/
def strContains (s sub : String) : Bool :=
  charsContain sub.data s.data

/-- The rank-scan loop of `checkKeywordRank` (`src/seleniumRankTracker.ts`
lines 228-235): walk the results; the first result with a truthy `url`
containing the domain yields rank `i + 1` and that url; otherwise rank stays
`0` with url string `"null"`. `i` is the 0-based position of the head. -/
def scanResults (domain : String) : List SearchResult → Nat → Nat × String
  | [], _ => (0, "null")
  | r :: rest, i =>
    if r.url ≠ "" && strContains r.url domain then (i + 1, r.url)
    else scanResults domain rest (i + 1)

/-- The rank produced by `checkKeywordRank` from the parsed results
(`src/seleniumRankTracker.ts` lines 225-256): the scan result, except that a
scan rank of `0` (no match) is replaced by the sentinel `101` with url
`"not found"`. -/
def computeRank (results : List SearchResult) (domain : String) : Nat × String :=
  if (scanResults domain results 0).1 = 0 then (101, "not found")
  else scanResults domain results 0

/-! ### The session-release structure of `checkKeywordRank`
(`src/seleniumRankTracker.ts` lines 180-282).

`checkKeywordRank` acquires a tab from the `DriverManager`, runs the
navigation / CAPTCHA / parsing body (the external executor, any step of which
may throw), wraps every error as `Failed to check rank: ...`, and releases the
tab in a `finally` block guarded by `if (tabId)` — `tabId` is only assigned
once `getTab` has returned.  The body is abstracted as an outcome: either the
parsed results or a thrown message. -/

inductive BodyOutcome where
  | ok (results : List SearchResult)
  | fail (msg : String)

instance {ε α : Type} [DecidableEq ε] [DecidableEq α] : DecidableEq (Except ε α) :=
  fun x y =>
    match x, y with
    | Except.ok a, Except.ok b =>
      if h : a = b then isTrue (by rw [h])
      else isFalse (by intro hh; cases hh; exact h rfl)
    | Except.error a, Except.error b =>
      if h : a = b then isTrue (by rw [h])
      else isFalse (by intro hh; cases hh; exact h rfl)
    | Except.ok _, Except.error _ => isFalse (by intro hh; cases hh)
    | Except.error _, Except.ok _ => isFalse (by intro hh; cases hh)

/-- Result of one `checkKeywordRank` call: the returned rank/url or the
thrown error, plus the list of tab ids passed to `releaseTab`, in order. -/
structure CheckRun where
  result : Except String (Nat × String)
  released : List String
deriving Repr, DecidableEq

/-- Shallow embedding of `checkKeywordRank`'s control flow: `acquire` is the
outcome of `driverManager.getTab` (the tab id, or a thrown error), `body` the
outcome of the navigation/parsing code run on that tab. -/
def checkKeywordRank (domain : String) (acquire : Except String String)
    (body : String → BodyOutcome) : CheckRun :=
  let step : Except String (Nat × String) × Option String :=
    match acquire with
    | Except.error e => (Except.error e, none)
    | Except.ok tid =>
      match body tid with
      | BodyOutcome.fail msg => (Except.error msg, some tid)
      | BodyOutcome.ok results => (Except.ok (computeRank results domain), some tid)
  { result :=
      match step.1 with
      | Except.error e => Except.error ("Failed to check rank: " ++ e)
      | Except.ok r => Except.ok r
    released :=
      match step.2 with
      | some t => if t = "" then [] else [t]
      | none => [] }

/-! ### The retry loop of `SeleniumRankTracker.processJob`
(`src/seleniumRankTracker.ts` lines 48-178).

Each iteration of the `while (!result && retries < CONFIG.MAX_RETRIES)` loop
first asks the proxy manager for a proxy; on `null` it sleeps
`nextAvailableIn || 5000` ms and increments `retries`; otherwise it runs
`checkKeywordRank`, whose outcome is either a rank/url or a thrown error.  A
returned rank of exactly `0` is discarded and rethrown; the catch block
records the error, increments `retries`, sleeps `RETRY_DELAY_MS` and, once
`retries` reaches `MAX_RETRIES`, stores the terminal `rank = null` result.
The environment (proxy availability and executor outcomes) is an oracle
indexed by the iteration's `retries` value, which increases by exactly one on
every iteration that does not terminate the loop. -/

/-- The final record of `processJob` (`RankResult`); the timestamp and the
location/language/device echo fields are omitted. -/
structure RankResult where
  keyword : String
  domain : String
  rank : Option Nat
  url : Option String
  error : Option String
deriving Repr, DecidableEq

/-- What one loop iteration observes from the environment. -/
inductive JobAttempt where
  | noProxy (nextAvailableIn : Option Int)
  | withProxy (proxyId : String) (outcome : Except String (Nat × String))

/-- The mutable accumulator of `processJob`: retry counter, error log, the
result slot, the performed `delay(...)` waits and the proxy id in use. -/
structure JobState where
  retries : Nat
  errors : List String
  result : Option RankResult
  waits : List Int
  usedProxyId : String
deriving Repr, DecidableEq

def initialJobState : JobState :=
  { retries := 0, errors := [], result := none, waits := [], usedProxyId := "none" }

/-- `proxyResult.nextAvailableIn || 5000`: the hint, with `null` and the
falsy `0` replaced by the 5000 ms default. -/
def poolWaitTime (hint : Option Int) : Int :=
  match hint with
  | some t => if t = 0 then 5000 else t
  | none => 5000

/-- The catch block of `processJob`: append the message, bump `retries`,
sleep `RETRY_DELAY_MS` (5000), and on reaching `maxRetries` store the
terminal result with `rank = null` and the joined error history. -/
def jobErrorStep (maxRetries : Nat) (kw dom : String) (msg : String)
    (s : JobState) : JobState :=
  let errors2 := s.errors ++ [msg]
  let retries2 := s.retries + 1
  let waits2 := s.waits ++ [5000]
  let terminal : RankResult :=
    { keyword := kw, domain := dom, rank := none, url := none,
      error := some (String.intercalate " | " errors2) }
  if maxRetries ≤ retries2 then
    { s with errors := errors2, retries := retries2, waits := waits2,
             result := some terminal }
  else { s with errors := errors2, retries := retries2, waits := waits2 }

/-- One iteration of the retry loop body. -/
def processJobIter (maxRetries : Nat) (kw dom : String) (a : JobAttempt)
    (s : JobState) : JobState :=
  match a with
  | JobAttempt.noProxy hint =>
    { s with waits := s.waits ++ [poolWaitTime hint], retries := s.retries + 1 }
  | JobAttempt.withProxy pid outcome =>
    let s1 := { s with usedProxyId := pid }
    match outcome with
    | Except.ok (rank, url) =>
      if rank = 0 then
        jobErrorStep maxRetries kw dom
          ("Rank is 0 for keyword \"" ++ kw ++ "\"") s1
      else
        { s1 with result := some { keyword := kw, domain := dom, rank := some rank,
                                   url := some url, error := none } }
    | Except.error msg => jobErrorStep maxRetries kw dom msg s1

/-- The `while (!result && retries < maxRetries)` loop, with enough fuel to
run to completion. -/
def processJobLoop (maxRetries : Nat) (kw dom : String)
    (oracle : Nat → JobAttempt) : Nat → JobState → JobState
  | 0, s => s
  | Nat.succ fuel, s =>
    if s.result.isSome then s
    else if maxRetries ≤ s.retries then s
    else processJobLoop maxRetries kw dom oracle fuel
      (processJobIter maxRetries kw dom (oracle s.retries) s)

/-- `SeleniumRankTracker.processJob`, as a function of the configured
`MAX_RETRIES` and the environment oracle.  Its `result` field is the returned
`RankResult` (`none` models the `return result!` of a loop that exited with
`result` still null). -/
def processJob (maxRetries : Nat) (kw dom : String)
    (oracle : Nat → JobAttempt) : JobState :=
  processJobLoop maxRetries kw dom oracle (maxRetries + 1) initialJobState

/-! ### The tab pool (`DriverManager`, `src/selenium/driverManager.ts`).

The browser environment is abstracted by `liveHandles`: the window handles
the underlying browser currently reports; `switchTo().window(h)` succeeds
exactly when `h` is live.  `setProxy` (called by `getTab` when creating a tab
for a proxy id other than `"default"`) restarts the whole browser: every
previous handle dies and the `tabs` map is cleared. -/

/-- `TabInfo` of `src/selenium/driverManager.ts`. -/
structure TabInfo where
  handle : String
  proxyId : String
  isActive : Bool
  lastUsed : Int
  createdAt : Int
deriving Repr, DecidableEq

/-- `DriverManager` state: whether `this.driver` is non-null, the `tabs` map
(insertion-ordered), the `maxTabs` bound, and the abstract browser state. -/
structure DriverManager where
  driverUp : Bool
  tabs : List (String × TabInfo)
  maxTabs : Nat
  liveHandles : List String
deriving Repr, DecidableEq

/-- `tabTTL` (2 minutes). -/
def tabTTL : Int := 2 * 60 * 1000

def tabLookup (tabs : List (String × TabInfo)) (i : String) : Option TabInfo :=
  (tabs.find? (fun e => e.1 = i)).map (fun e => e.2)

def tabUpdate (tabs : List (String × TabInfo)) (i : String) (t : TabInfo) :
    List (String × TabInfo) :=
  tabs.map (fun e => if e.1 = i then (i, t) else e)

/-- The reuse scan of `getTab` (lines 202-208): the first entry whose
`proxyId` equals `proxyConfig?.id` and which is not active.  When
`proxyConfig` is `null` the comparison is against `undefined` and never
matches the stored string. -/
def findIdleTab (tabs : List (String × TabInfo)) (pid : Option String) :
    Option (String × TabInfo) :=
  match pid with
  | none => none
  | some i => tabs.find? (fun e => decide (e.2.proxyId = i) && !e.2.isActive)

/-- `DriverManager.getTab` (`src/selenium/driverManager.ts` lines 195-258).
If an idle tab bound to the same proxy id exists it is marked active (before
the window switch, which throws when the handle is dead) and returned.
Otherwise a new tab is opened (`freshTabId`, `freshHandle` stand for the
generated id and the handle produced by `window.open`); unless the requested
proxy id is exactly `"default"`, `setProxy` first restarts the browser,
killing every existing handle and clearing the tabs map.  No path consults
`maxTabs` or the number of active tabs. -/
def getTab (dm0 : DriverManager) (proxyConfig : Option Proxy) (now : Int)
    (freshTabId freshHandle : String) : Except String String × DriverManager :=
  let dm := if dm0.driverUp then dm0 else { dm0 with driverUp := true }
  let pid := proxyConfig.map (fun p => p.id)
  match findIdleTab dm.tabs pid with
  | some (tabId, info) =>
    let info2 : TabInfo := { info with isActive := true, lastUsed := now }
    let dm2 := { dm with tabs := tabUpdate dm.tabs tabId info2 }
    if dm2.liveHandles.contains info.handle then (Except.ok tabId, dm2)
    else (Except.error "no such window", dm2)
  | none =>
    let dm1 := { dm with liveHandles := dm.liveHandles ++ [freshHandle] }
    let dm2 :=
      if pid = some "default" then dm1
      else { dm1 with tabs := [], liveHandles := [], driverUp := true }
    let newTab : TabInfo :=
      { handle := freshHandle, proxyId := pid.getD "default", isActive := true,
        lastUsed := now, createdAt := now }
    (Except.ok freshTabId, { dm2 with tabs := dm2.tabs ++ [(freshTabId, newTab)] })

/-- `DriverManager.closeTab`: close the window if its handle is still live
and drop the entry from the map. -/
def closeTab (dm : DriverManager) (tabId : String) : DriverManager :=
  match tabLookup dm.tabs tabId with
  | none => dm
  | some info =>
    { dm with tabs := dm.tabs.filter (fun e => decide (e.1 ≠ tabId)),
              liveHandles := dm.liveHandles.filter (fun h => decide (h ≠ info.handle)) }

/-- `DriverManager.releaseTab` (lines 260-271): mark inactive, refresh
`lastUsed`, and close the tab outright when more than one tab is tracked. -/
def releaseTab (dm : DriverManager) (tabId : String) (now : Int) : DriverManager :=
  match tabLookup dm.tabs tabId with
  | none => dm
  | some info =>
    let info2 : TabInfo := { info with isActive := false, lastUsed := now }
    let dm2 := { dm with tabs := tabUpdate dm.tabs tabId info2 }
    if 1 < dm2.tabs.length then closeTab dm2 tabId else dm2

/-- `DriverManager.getActiveTabsCount`. -/
def getActiveTabsCount (dm : DriverManager) : Nat :=
  (dm.tabs.filter (fun e => e.2.isActive)).length

/-! ### Concrete instances used by witnesses and counterexamples -/

/-- A single active proxy. -/
def pA : Proxy :=
  { id := "p1", host := "h", port := 8000, username := "u", password := "w",
    location := none, isActive := true }

/-- Fresh usage record for `pA`, as `addProxy` registers it. -/
def usage0 : ProxyUsage :=
  { proxy := pA, lastUsed := 0, usageCount := 0, cooldownUntil := 0,
    consecutiveDetections := 0 }

/-- A manager holding exactly `pA` with the default options
(`requestsPerMinute = 2`, `cooldownPeriod = 300000`, round-robin). -/
def pmA : ProxyManager :=
  { proxies := [pA], proxyUsage := [("p1", usage0)], currentIndex := 0,
    options := defaultOptions }

/-- A proxy whose id is the `"default"` key of the tab pool. -/
def pDef : Proxy :=
  { id := "default", host := "h", port := 0, username := "", password := "",
    location := none, isActive := true }

/-- A driver manager at its concurrency ceiling: `maxTabs = 1` and one busy
tab bound to the `"default"` proxy id. -/
def dmFull : DriverManager :=
  { driverUp := true, maxTabs := 1, liveHandles := ["h1"],
    tabs := [("tab_a", { handle := "h1", proxyId := "default", isActive := true,
                         lastUsed := 0, createdAt := 0 })] }

/-- An idle tab record bound to proxy `"p1"`, last used at time 0. -/
def staleInfo : TabInfo :=
  { handle := "h1", proxyId := "p1", isActive := false, lastUsed := 0, createdAt := 0 }

/-- A driver manager holding one idle tab bound to proxy `"p1"` whose window
handle is no longer live and whose idle time far exceeds `tabTTL`. -/
def dmStale : DriverManager :=
  { driverUp := true, maxTabs := 10, liveHandles := [], tabs := [("tab_a", staleInfo)] }

/-- A usage record at the budget inside the current window (two uses at
time 100000, no cooldown). -/
def usageTired : ProxyUsage :=
  { proxy := pA, lastUsed := 100000, usageCount := 2, cooldownUntil := 0,
    consecutiveDetections := 0 }

/-- `pmA` after its budget has been spent inside the window. -/
def pmTired : ProxyManager :=
  { proxies := [pA], proxyUsage := [("p1", usageTired)], currentIndex := 0,
    options := defaultOptions }

/-- The usage counter currently stored for resource `i` (0 if absent). -/
def usageCountOf (pm : ProxyManager) (i : String) : Nat :=
  ((mapLookup pm.proxyUsage i).map (fun u => u.usageCount)).getD 0

/-- `n` consecutive `markProxyDetected` calls on resource `i` (no custom
cooldown), all at the same instant, with no intervening `markProxyUsed`. -/
def detectTimes (pm : ProxyManager) (i : String) (now : Int) : Nat → ProxyManager
  | 0 => pm
  | Nat.succ n => markProxyDetected (detectTimes pm i now n) i none now

/-- `cooldownUntil - now` for resource `i` (0 - now if absent). -/
def cooldownGap (pm : ProxyManager) (i : String) (now : Int) : Int :=
  ((mapLookup pm.proxyUsage i).map (fun u => u.cooldownUntil)).getD 0 - now

/-! ### Map lemmas -/

theorem mapLookup_cons (e : String × ProxyUsage) (m : List (String × ProxyUsage))
    (i : String) :
    mapLookup (e :: m) i = if e.1 = i then some e.2 else mapLookup m i := by
  by_cases h : e.1 = i <;> simp [mapLookup, List.find?_cons, h]

theorem mapUpdate_cons (e : String × ProxyUsage) (m : List (String × ProxyUsage))
    (i : String) (u : ProxyUsage) :
    mapUpdate (e :: m) i u = (if e.1 = i then (i, u) else e) :: mapUpdate m i u := by
  simp [mapUpdate]

theorem mapLookup_mapUpdate_self (m : List (String × ProxyUsage)) (i : String)
    (u u0 : ProxyUsage) (h : mapLookup m i = some u0) :
    mapLookup (mapUpdate m i u) i = some u := by
  induction m with
  | nil => simp [mapLookup] at h
  | cons e rest ih =>
    by_cases he : e.1 = i
    · simp [mapUpdate_cons, mapLookup_cons, he]
    · rw [mapLookup_cons] at h
      simp only [he, if_false] at h
      rw [mapUpdate_cons]
      simp only [he, if_false]
      rw [mapLookup_cons]
      simp only [he, if_false]
      exact ih h

theorem mapLookup_mapUpdate_ne (m : List (String × ProxyUsage)) (i j : String)
    (u : ProxyUsage) (h : j ≠ i) :
    mapLookup (mapUpdate m i u) j = mapLookup m j := by
  induction m with
  | nil => simp [mapLookup, mapUpdate]
  | cons e rest ih =>
    rw [mapUpdate_cons, mapLookup_cons, mapLookup_cons]
    by_cases he : e.1 = i
    · have : ((i, u) : String × ProxyUsage).1 = j ↔ False := by
        simp
        intro hij
        exact h hij.symm
      simp only [he, if_true]
      by_cases hj : e.1 = j
      · exact absurd (he ▸ hj : i = j) (fun hh => h hh.symm)
      · simp only [show ((i, u) : String × ProxyUsage).1 = j ↔ False from this, if_false,
          iff_false] at *
        simp [hj, ih]
    · simp only [he, if_false]
      exact ih ▸ rfl

theorem mapLookup_mem (m : List (String × ProxyUsage)) (i : String) (u : ProxyUsage)
    (h : mapLookup m i = some u) : ∃ e ∈ m, e.2 = u := by
  induction m with
  | nil => simp [mapLookup] at h
  | cons e rest ih =>
    rw [mapLookup_cons] at h
    by_cases he : e.1 = i
    · simp only [he, if_true, Option.some.injEq] at h
      exact ⟨e, List.mem_cons_self e rest, h⟩
    · simp only [he, if_false] at h
      obtain ⟨e2, he2, hu⟩ := ih h
      exact ⟨e2, List.mem_cons_of_mem e he2, hu⟩

theorem mapUpdate_mem (m : List (String × ProxyUsage)) (i : String)
    (u : ProxyUsage) (e : String × ProxyUsage) (h : e ∈ mapUpdate m i u) :
    e.2 = u ∨ e ∈ m := by
  unfold mapUpdate at h
  obtain ⟨e0, he0, heq⟩ := List.mem_map.mp h
  by_cases hc : e0.1 = i
  · simp only [hc, if_true] at heq
    left
    rw [← heq]
  · simp only [hc, if_false] at heq
    right
    rw [← heq]
    exact he0

/-! ### Lemmas about the availability filter of `getNextProxy` -/

/-- Proxies whose id differs from `i` never touch `i`'s usage entry. -/
theorem filterAvailable_lookup_untouched (opts : ProxyManagerOptions) (now : Int)
    (L : List Proxy) (m : List (String × ProxyUsage)) (i : String)
    (h : ∀ q ∈ L, q.id ≠ i) :
    mapLookup (filterAvailable opts now L m).2 i = mapLookup m i := by
  induction L generalizing m with
  | nil => simp [filterAvailable]
  | cons p rest ih =>
    have hp : p.id ≠ i := h p (List.mem_cons_self p rest)
    have hrest : ∀ q ∈ rest, q.id ≠ i := fun q hq => h q (List.mem_cons_of_mem p hq)
    unfold filterAvailable
    by_cases hact : p.isActive
    · simp only [hact, if_true]
      cases hl : mapLookup m p.id with
      | none => exact ih m hrest
      | some u =>
        simp only
        rw [ih _ hrest]
        exact mapLookup_mapUpdate_ne _ _ _ _ (fun hh => hp hh.symm)
    · simp only [hact, if_false]
      exact ih m hrest

/-- Every available proxy is one of the filtered proxies. -/
theorem filterAvailable_avail_mem (opts : ProxyManagerOptions) (now : Int)
    (L : List Proxy) (m : List (String × ProxyUsage)) (q : Proxy)
    (h : q ∈ (filterAvailable opts now L m).1) : q ∈ L := by
  induction L generalizing m with
  | nil => simp [filterAvailable] at h
  | cons p rest ih =>
    unfold filterAvailable at h
    by_cases hact : p.isActive
    · simp only [hact, if_true] at h
      cases hl : mapLookup m p.id with
      | none =>
        rw [hl] at h
        simp only [List.mem_cons] at h ⊢
        cases h with
        | inl h => exact Or.inl h
        | inr h => exact Or.inr (ih _ h)
      | some u =>
        rw [hl] at h
        simp only at h
        by_cases hc : (checkUsage opts now u).1
        · simp only [hc, if_true, List.mem_cons] at h
          cases h with
          | inl h => exact List.mem_cons.mpr (Or.inl h)
          | inr h => exact List.mem_cons_of_mem p (ih _ h)
        · simp only [hc, if_false] at h
          exact List.mem_cons_of_mem p (ih _ h)
    · simp only [hact, if_false] at h
      exact List.mem_cons_of_mem p (ih _ h)

/-- An active proxy that is out of cooldown, inside its one-minute window and
at (or past) the request budget gets `cooldownUntil := now + cooldownPeriod`
written by the filter pass, and is excluded from the available list (as is
any proxy sharing its id, of which there is none under id-uniqueness). -/
theorem filterAvailable_over_budget (opts : ProxyManagerOptions) (now : Int)
    (L : List Proxy) (m : List (String × ProxyUsage)) (p : Proxy) (u : ProxyUsage)
    (hmem : p ∈ L) (hnodup : (L.map (fun q => q.id)).Nodup)
    (hact : p.isActive = true) (hu : mapLookup m p.id = some u)
    (hcd : ¬ now < u.cooldownUntil) (hwin : now - 60000 < u.lastUsed)
    (hbud : opts.requestsPerMinute ≤ u.usageCount) :
    mapLookup (filterAvailable opts now L m).2 p.id =
      some ({ u with cooldownUntil := now + opts.cooldownPeriod }) ∧
    ∀ q ∈ (filterAvailable opts now L m).1, q.id ≠ p.id := by
  induction L generalizing m u with
  | nil => simp at hmem
  | cons x rest ih =>
    have hnodup2 : (rest.map (fun q => q.id)).Nodup := (List.nodup_cons.mp hnodup).2
    have hxrest : x.id ∉ rest.map (fun q => q.id) := (List.nodup_cons.mp hnodup).1
    rcases List.mem_cons.mp hmem with hpx | hprest
    · subst hpx
      have hrestne : ∀ q ∈ rest, q.id ≠ p.id := by
        intro q hq hqe
        exact hxrest (hqe ▸ List.mem_map_of_mem (fun r => r.id) hq)
      unfold filterAvailable
      simp only [hact, if_true, hu]
      have hcheck : checkUsage opts now u =
          (false, { u with cooldownUntil := now + opts.cooldownPeriod }) := by
        unfold checkUsage
        simp [hcd, hwin, hbud]
      rw [hcheck]
      simp only [Bool.false_eq_true, if_false]
      constructor
      · rw [filterAvailable_lookup_untouched opts now rest _ p.id hrestne]
        exact mapLookup_mapUpdate_self m p.id _ u hu
      · intro q hq
        exact hrestne q (filterAvailable_avail_mem opts now rest _ q hq)
    · have hxne : x.id ≠ p.id := by
        intro he
        exact hxrest (he ▸ List.mem_map_of_mem (fun r => r.id) hprest)
      unfold filterAvailable
      by_cases hxact : x.isActive
      · simp only [hxact, if_true]
        cases hl : mapLookup m x.id with
        | none =>
          have := ih m u hprest hnodup2 hu hcd hwin hbud
          refine ⟨this.1, ?_⟩
          intro q hq
          simp only [List.mem_cons] at hq
          rcases hq with hq | hq
          · exact hq ▸ hxne
          · exact this.2 q hq
        | some ux =>
          simp only
          have hu2 : mapLookup (mapUpdate m x.id (checkUsage opts now ux).2) p.id = some u := by
            rw [mapLookup_mapUpdate_ne m x.id p.id _ (fun hh => hxne hh.symm)]
            exact hu
          have := ih _ u hprest hnodup2 hu2 hcd hwin hbud
          refine ⟨this.1, ?_⟩
          intro q hq
          by_cases hc : (checkUsage opts now ux).1
          · simp only [hc, if_true, List.mem_cons] at hq
            rcases hq with hq | hq
            · exact hq ▸ hxne
            · exact this.2 q hq
          · simp only [hc, if_false] at hq
            exact this.2 q hq
      · simp only [hxact, if_false]
        exact ih m u hprest hnodup2 hu hcd hwin hbud

/-- A proxy accepted by the eligibility test has, in its updated usage
record, a count strictly under the budget (provided the budget is at least
one, so that a window reset lands under it). -/
theorem checkUsage_true_budget (opts : ProxyManagerOptions) (now : Int)
    (u : ProxyUsage) (hlim : 1 ≤ opts.requestsPerMinute)
    (h : (checkUsage opts now u).1 = true) :
    (checkUsage opts now u).2.usageCount < opts.requestsPerMinute := by
  unfold checkUsage at h ⊢
  split_ifs at h ⊢ with h1 h2 h3
  · show u.usageCount < opts.requestsPerMinute
    omega
  · show 0 < opts.requestsPerMinute
    omega

/-- The eligibility test never increases a usage count. -/
theorem checkUsage_count_le (opts : ProxyManagerOptions) (now : Int)
    (u : ProxyUsage) : (checkUsage opts now u).2.usageCount ≤ u.usageCount := by
  unfold checkUsage
  split_ifs
  · exact le_refl _
  · exact le_refl _
  · exact le_refl _
  · exact Nat.zero_le _

/-- After the filter pass, the usage record found under an available proxy's
id is strictly under the budget. -/
theorem filterAvailable_avail_budget (opts : ProxyManagerOptions) (now : Int)
    (L : List Proxy) (m : List (String × ProxyUsage)) (q : Proxy) (u2 : ProxyUsage)
    (hnodup : (L.map (fun r => r.id)).Nodup) (hlim : 1 ≤ opts.requestsPerMinute)
    (hav : q ∈ (filterAvailable opts now L m).1)
    (hlk : mapLookup (filterAvailable opts now L m).2 q.id = some u2) :
    u2.usageCount < opts.requestsPerMinute := by
  induction L generalizing m with
  | nil => simp [filterAvailable] at hav
  | cons x rest ih =>
    have hnodup2 : (rest.map (fun r => r.id)).Nodup := (List.nodup_cons.mp hnodup).2
    have hxrest : x.id ∉ rest.map (fun r => r.id) := (List.nodup_cons.mp hnodup).1
    have hrestne : ∀ r ∈ rest, r.id ≠ x.id := by
      intro r hr he
      exact hxrest (he ▸ List.mem_map_of_mem (fun s => s.id) hr)
    unfold filterAvailable at hav hlk
    by_cases hxact : x.isActive
    · simp only [hxact, if_true] at hav hlk
      cases hl : mapLookup m x.id with
      | none =>
        rw [hl] at hav hlk
        simp only [List.mem_cons] at hav
        rcases hav with hqx | hav
        · subst hqx
          rw [filterAvailable_lookup_untouched opts now rest m q.id hrestne] at hlk
          rw [hl] at hlk
          exact absurd hlk (by simp)
        · exact ih m hnodup2 hav hlk
      | some ux =>
        rw [hl] at hav hlk
        simp only at hav hlk
        by_cases hc : (checkUsage opts now ux).1
        · simp only [hc, if_true, List.mem_cons] at hav
          rcases hav with hqx | hav
          · subst hqx
            rw [filterAvailable_lookup_untouched opts now rest _ q.id hrestne] at hlk
            rw [mapLookup_mapUpdate_self m q.id _ ux hl] at hlk
            have := checkUsage_true_budget opts now ux hlim hc
            rw [Option.some.injEq] at hlk
            exact hlk ▸ this
          · exact ih _ hnodup2 hav hlk
        · simp only [hc, if_false] at hav
          exact ih _ hnodup2 hav hlk
    · simp only [hxact, if_false] at hav hlk
      exact ih m hnodup2 hav hlk

/-- The filter pass preserves an upper bound on every stored usage count. -/
theorem filterAvailable_count_bound (opts : ProxyManagerOptions) (now : Int)
    (L : List Proxy) (m : List (String × ProxyUsage)) (B : Nat)
    (hm : ∀ e ∈ m, e.2.usageCount ≤ B) :
    ∀ e ∈ (filterAvailable opts now L m).2, e.2.usageCount ≤ B := by
  induction L generalizing m with
  | nil => simpa [filterAvailable] using hm
  | cons x rest ih =>
    unfold filterAvailable
    by_cases hxact : x.isActive
    · simp only [hxact, if_true]
      cases hl : mapLookup m x.id with
      | none => exact ih m hm
      | some ux =>
        simp only
        refine ih _ ?_
        intro e he
        rcases mapUpdate_mem m x.id _ e he with he2 | he2
        · obtain ⟨e0, he0, hu0⟩ := mapLookup_mem m x.id ux hl
          calc e.2.usageCount = (checkUsage opts now ux).2.usageCount := by rw [he2]
            _ ≤ ux.usageCount := checkUsage_count_le opts now ux
            _ = e0.2.usageCount := by rw [hu0]
            _ ≤ B := hm e0 he0
        · exact hm e he2
    · simp only [hxact, if_false]
      exact ih m hm

/-- The round-robin loop only ever selects a proxy whose id is among the
available ids. -/
theorem roundRobinPick_id_mem (proxies : List Proxy) (availIds : List String)
    (fuel idx : Nat) (p : Proxy) (i : Nat)
    (h : roundRobinPick proxies availIds idx fuel = some (p, i)) :
    p.id ∈ availIds := by
  induction fuel generalizing idx with
  | zero => simp [roundRobinPick] at h
  | succ fuel ih =>
    unfold roundRobinPick at h
    cases hg : proxies.get? ((idx + 1) % proxies.length) with
    | none =>
      rw [hg] at h
      exact ih _ h
    | some q =>
      rw [hg] at h
      simp only at h
      by_cases hc : availIds.contains q.id
      · simp only [hc, if_true, Option.some.injEq, Prod.mk.injEq] at h
        have hq : q.id ∈ availIds := by simpa using hc
        exact h.1 ▸ hq
      · simp only [hc, if_false] at h
        exact ih _ h

/-- The `reduce` callback picks one of its two arguments. -/
theorem leastComparator_cases (m : List (String × ProxyUsage)) (a c : Proxy) :
    leastComparator m a c = a ∨ leastComparator m a c = c := by
  unfold leastComparator
  split_ifs
  · exact Or.inr rfl
  · exact Or.inl rfl

/-- The least-used fold returns its seed or a member of the folded list. -/
theorem leastFold_mem (m : List (String × ProxyUsage)) (l : List Proxy) (a : Proxy) :
    l.foldl (leastComparator m) a = a ∨ l.foldl (leastComparator m) a ∈ l := by
  induction l generalizing a with
  | nil => simp
  | cons c cs ih =>
    simp only [List.foldl_cons]
    rcases ih (leastComparator m a c) with h | h
    · rcases leastComparator_cases m a c with h2 | h2
      · rw [h, h2]
        exact Or.inl rfl
      · rw [h, h2]
        exact Or.inr (List.mem_cons_self c cs)
    · exact Or.inr (List.mem_cons_of_mem c h)

/-- `leastUsedPick` returns a member of the available list. -/
theorem leastUsedPick_mem (m : List (String × ProxyUsage)) (avail : List Proxy)
    (q : Proxy) (h : leastUsedPick m avail = some q) : q ∈ avail := by
  cases avail with
  | nil => simp [leastUsedPick] at h
  | cons a0 rest =>
    unfold leastUsedPick at h
    simp only [Option.some.injEq] at h
    rcases leastFold_mem m (a0 :: rest) a0 with h2 | h2
    · rw [← h]
      rw [h2]
      exact List.mem_cons_self a0 rest
    · rw [← h]
      exact h2

/-- C1 (counterexample): with `maxTabs = 1` and one busy tab already bound to
the `"default"` proxy id, `getTab` for that proxy id does not suspend: it
returns a fresh tab immediately, raising the busy-tab count to
`maxTabs + 1`.  `acquire` therefore does return a session while the count of
busy sessions already equals the ceiling. -/
theorem c1_counterexample :
    getActiveTabsCount dmFull = dmFull.maxTabs ∧
    (getTab dmFull (some pDef) 1000 "tab_b" "h2").1 = Except.ok "tab_b" ∧
    getActiveTabsCount (getTab dmFull (some pDef) 1000 "tab_b" "h2").2 =
      dmFull.maxTabs + 1 := by decide

/-- C1 (amended): `getTab` never suspends and never consults `maxTabs`: when
no idle tab bound to the requested proxy id exists (shown here for the
`"default"` id, which skips the browser restart), it creates and returns a
new busy tab unconditionally, increasing the number of busy tabs by one —
in particular past `maxTabs` when the pool was already at the ceiling.
`maxTabs` only bounds the idle tabs retained by the periodic cleanup. -/
theorem c1_amended (dm : DriverManager) (p : Proxy) (now : Int) (ft fh : String)
    (h1 : dm.driverUp = true) (h2 : findIdleTab dm.tabs (some p.id) = none)
    (h3 : p.id = "default") :
    (getTab dm (some p) now ft fh).1 = Except.ok ft ∧
    getActiveTabsCount (getTab dm (some p) now ft fh).2 = getActiveTabsCount dm + 1 := by
  unfold getTab
  simp only [h1, if_true, Option.map_some']
  rw [h2]
  simp only [h3, if_true, getActiveTabsCount, List.filter_append]
  simp

theorem c1_amended_witness :
    dmFull.driverUp = true ∧ findIdleTab dmFull.tabs (some pDef.id) = none ∧
    pDef.id = "default" ∧
    ((getTab dmFull (some pDef) 1000 "tab_b" "h2").1 = Except.ok "tab_b" ∧
      getActiveTabsCount (getTab dmFull (some pDef) 1000 "tab_b" "h2").2 =
        getActiveTabsCount dmFull + 1) :=
  ⟨rfl, by decide, rfl,
    c1_amended dmFull pDef 1000 "tab_b" "h2" rfl (by decide) rfl⟩

/-- C2 (counterexample): with the default budget of 2 requests per window,
the interleaving `next(); next(); markUsed(); markUsed()` (two concurrent
jobs each reserving and then confirming a use) leaves the stored
`usageCount` at 4 inside the current window — above `requestsPerWindow`,
because `markProxyUsed` increments the counter unconditionally on top of the
eager increment already performed by `getNextProxy`. -/
theorem c2_counterexample :
    pmA.options.requestsPerMinute = 2 ∧
    mapLookup (markProxyUsed (markProxyUsed
        (getNextProxy (getNextProxy pmA 100000).2 100000).2
        "p1" 100000) "p1" 100000).proxyUsage "p1" =
      some ({ usage0 with lastUsed := 100000, usageCount := 4 }) ∧
    ¬ usageCountOf (markProxyUsed (markProxyUsed
        (getNextProxy (getNextProxy pmA 100000).2 100000).2
        "p1" 100000) "p1" 100000) "p1" ≤ pmA.options.requestsPerMinute := by
  decide

/-- C6: a pool with one active resource and `requestsPerWindow = 2`: three
sequential `next()` calls at the same instant yield the resource, the
resource again, and then `null` with the strictly positive wait hint
`300000` (the cooldown written by the third eligibility check). -/
theorem c6_single_proxy_scenario :
    (getNextProxy pmA 100000).1.proxy = some pA ∧
    (getNextProxy (getNextProxy pmA 100000).2 100000).1.proxy = some pA ∧
    (getNextProxy (getNextProxy (getNextProxy pmA 100000).2 100000).2 100000).1 =
      { proxy := none, nextAvailableIn := some 300000 } ∧
    (0 : Int) < 300000 := by decide

/-- C7: `checkKeywordRank` releases the acquired tab exactly once on every
path — also when the navigation/CAPTCHA/parsing body throws — and releases
nothing when `getTab` itself threw; no path releases twice.  (`getTab`'s tab
ids have the form `tab_<hex>`, hence the released list is exactly `[t]`
whenever acquisition returned `t ≠ ""`; the `finally` block's `if (tabId)`
guard is the only dependency.) -/
theorem c7_release_exactly_once (dom : String) (acquire : Except String String)
    (body : String → BodyOutcome) :
    (checkKeywordRank dom acquire body).released =
      (match acquire with
       | Except.ok t => if t = "" then [] else [t]
       | Except.error _ => []) ∧
    (checkKeywordRank dom acquire body).released.length ≤ 1 := by
  cases acquire with
  | error e => simp [checkKeywordRank]
  | ok t =>
    cases hb : body t with
    | ok results =>
      simp only [checkKeywordRank, hb]
      refine ⟨trivial, ?_⟩
      split_ifs <;> simp
    | fail msg =>
      simp only [checkKeywordRank, hb]
      refine ⟨trivial, ?_⟩
      split_ifs <;> simp

/-- C8 (counterexample): `dmStale` holds one idle tab bound to `"p1"` that
has been idle for `1000000` ms (far beyond `tabTTL = 120000`) and whose
window handle is dead.  `getTab` for `"p1"` attempts to reuse it: it throws
`no such window` instead of transparently creating a new session, and leaves
the dead tab marked busy — so a failed probe does not fall through to
creation. -/
theorem c8_counterexample :
    tabLookup dmStale.tabs "tab_a" = some staleInfo ∧
    tabTTL < 1000000 - staleInfo.lastUsed ∧
    dmStale.liveHandles.contains staleInfo.handle = false ∧
    (getTab dmStale (some pA) 1000000 "tab_b" "h2").1 =
      Except.error "no such window" ∧
    (getTab dmStale (some pA) 1000000 "tab_b" "h2").2.tabs =
      [("tab_a", { staleInfo with isActive := true, lastUsed := 1000000 })] := by
  decide

/-- C8 (amended): `getTab` reuses the first idle tab bound to the requested
proxy id regardless of how long it has been idle (no TTL comparison guards
the reuse path); the tab is marked busy before the only liveness validation
— the window switch — and when that switch fails the error propagates to
the caller rather than a new session being created. -/
theorem c8_amended (dm : DriverManager) (p : Proxy) (t : String) (info : TabInfo)
    (now : Int) (ft fh : String) (h1 : dm.driverUp = true)
    (h2 : findIdleTab dm.tabs (some p.id) = some (t, info)) :
    (getTab dm (some p) now ft fh).2 =
      { dm with tabs := tabUpdate dm.tabs t ({ info with isActive := true, lastUsed := now }) } ∧
    (dm.liveHandles.contains info.handle = true →
      (getTab dm (some p) now ft fh).1 = Except.ok t) ∧
    (dm.liveHandles.contains info.handle = false →
      (getTab dm (some p) now ft fh).1 = Except.error "no such window") := by
  unfold getTab
  simp only [h1, if_true, Option.map_some']
  rw [h2]
  simp only []
  refine ⟨?_, ?_, ?_⟩
  · split_ifs <;> rfl
  · intro hl
    rw [if_pos hl]
  · intro hl
    rw [if_neg (fun hc => Bool.false_ne_true (hl ▸ hc))]

theorem c8_amended_witness :
    dmStale.driverUp = true ∧
    findIdleTab dmStale.tabs (some pA.id) = some ("tab_a", staleInfo) ∧
    dmStale.liveHandles.contains staleInfo.handle = false ∧
    (getTab dmStale (some pA) 1000000 "tab_b" "h2").1 =
      Except.error "no such window" :=
  ⟨rfl, by decide, by decide,
    (c8_amended dmStale pA "tab_a" staleInfo 1000000 "tab_b" "h2" rfl
        (by decide)).2.2 (by decide)⟩

/-- `markProxyUsed` overwrites the usage record as: counter incremented,
`lastUsed` stamped, `consecutiveDetections` reset to 0. -/
theorem markProxyUsed_lookup (pm : ProxyManager) (i : String) (u : ProxyUsage)
    (now : Int) (h : mapLookup pm.proxyUsage i = some u) :
    mapLookup (markProxyUsed pm i now).proxyUsage i =
      some ({ u with
        usageCount := u.usageCount + 1
        lastUsed := now
        consecutiveDetections := 0 }) := by
  unfold markProxyUsed
  rw [h]
  simp only []
  unfold resetConsecutiveDetections
  have h2 : mapLookup
      (mapUpdate pm.proxyUsage i ({ u with usageCount := u.usageCount + 1, lastUsed := now }))
      i = some ({ u with usageCount := u.usageCount + 1, lastUsed := now }) :=
    mapLookup_mapUpdate_self pm.proxyUsage i _ u h
  simp only [h2]
  exact mapLookup_mapUpdate_self _ i _ _ h2

/-- C9 (counterexample): `markUsed` is not idempotent: from the fresh state
of `pmA`, one call leaves `usageCount = 1` while two successive calls leave
`usageCount = 2`, so the resulting usage states differ. -/
theorem c9_counterexample :
    mapLookup (markProxyUsed pmA "p1" 1000).proxyUsage "p1" =
      some ({ usage0 with usageCount := 1, lastUsed := 1000 }) ∧
    mapLookup (markProxyUsed (markProxyUsed pmA "p1" 1000) "p1" 1000).proxyUsage "p1" =
      some ({ usage0 with usageCount := 2, lastUsed := 1000 }) ∧
    markProxyUsed (markProxyUsed pmA "p1" 1000) "p1" 1000 ≠
      markProxyUsed pmA "p1" 1000 := by decide

/-- C9 (amended): each `markProxyUsed` call resets `consecutiveDetections`
to 0, stamps `lastUsed = now` and leaves `cooldownUntil` alone — in those
fields a second call at the same instant changes nothing — but it also
increments `usageCountInWindow` unconditionally, so calling it twice leaves
`usageCount + 2` where one call leaves `usageCount + 1`: the operation is
not idempotent. -/
theorem c9_amended (pm : ProxyManager) (i : String) (u : ProxyUsage) (now : Int)
    (h : mapLookup pm.proxyUsage i = some u) :
    mapLookup (markProxyUsed pm i now).proxyUsage i =
      some ({ u with
        usageCount := u.usageCount + 1
        lastUsed := now
        consecutiveDetections := 0 }) ∧
    mapLookup (markProxyUsed (markProxyUsed pm i now) i now).proxyUsage i =
      some ({ u with
        usageCount := u.usageCount + 2
        lastUsed := now
        consecutiveDetections := 0 }) := by
  have h1 := markProxyUsed_lookup pm i u now h
  refine ⟨h1, ?_⟩
  have h2 := markProxyUsed_lookup (markProxyUsed pm i now) i _ now h1
  exact h2

theorem c9_amended_witness :
    mapLookup pmA.proxyUsage "p1" = some usage0 ∧
    (mapLookup (markProxyUsed pmA "p1" 1000).proxyUsage "p1" =
      some ({ usage0 with
        usageCount := usage0.usageCount + 1
        lastUsed := 1000
        consecutiveDetections := 0 }) ∧
    mapLookup (markProxyUsed (markProxyUsed pmA "p1" 1000) "p1" 1000).proxyUsage "p1" =
      some ({ usage0 with
        usageCount := usage0.usageCount + 2
        lastUsed := 1000
        consecutiveDetections := 0 })) :=
  ⟨rfl, c9_amended pmA "p1" usage0 1000 rfl⟩

/-! ### C5: escalating detection cooldown -/

/-- `markProxyDetected` preserves the configured options. -/
theorem markProxyDetected_options (pm : ProxyManager) (i : String)
    (cc : Option Int) (now : Int) :
    (markProxyDetected pm i cc now).options = pm.options := by
  unfold markProxyDetected
  split <;> rfl

theorem detectTimes_options (pm : ProxyManager) (i : String) (now : Int) :
    ∀ n, (detectTimes pm i now n).options = pm.options := by
  intro n
  induction n with
  | zero => rfl
  | succ n ih =>
    show (markProxyDetected (detectTimes pm i now n) i none now).options = pm.options
    rw [markProxyDetected_options, ih]

/-- One `markProxyDetected` call (no custom cooldown): the detection counter
is bumped and `cooldownUntil` is set to `now` plus the base period,
multiplied by the new counter once it reaches 2. -/
theorem markProxyDetected_lookup (pm : ProxyManager) (i : String) (u : ProxyUsage)
    (now : Int) (h : mapLookup pm.proxyUsage i = some u) :
    mapLookup (markProxyDetected pm i none now).proxyUsage i =
      some ({ u with
        consecutiveDetections := u.consecutiveDetections + 1
        cooldownUntil := now +
          (if 2 ≤ u.consecutiveDetections + 1 then
            pm.options.cooldownPeriod * ((u.consecutiveDetections + 1 : Nat) : Int)
          else pm.options.cooldownPeriod) }) := by
  unfold markProxyDetected
  rw [h]
  simp only []
  exact mapLookup_mapUpdate_self pm.proxyUsage i _ u h

/-- Closed form of `n` consecutive detections started from a record with no
prior detections: counter `n`, penalty `base` for `n = 1` and `base * n`
from `n = 2` on. -/
theorem detectTimes_lookup (pm : ProxyManager) (i : String) (u : ProxyUsage)
    (now : Int) (h : mapLookup pm.proxyUsage i = some u)
    (h0 : u.consecutiveDetections = 0) :
    ∀ n, 1 ≤ n →
      mapLookup (detectTimes pm i now n).proxyUsage i =
        some ({ u with
          consecutiveDetections := n
          cooldownUntil := now +
            (if 2 ≤ n then pm.options.cooldownPeriod * (n : Int)
             else pm.options.cooldownPeriod) }) := by
  intro n
  induction n with
  | zero => intro h1; exact absurd h1 (by decide)
  | succ n ih =>
    intro _
    by_cases hn : 1 ≤ n
    · have hn1 := ih hn
      show mapLookup (markProxyDetected (detectTimes pm i now n) i none now).proxyUsage i = _
      rw [markProxyDetected_lookup _ i _ now hn1]
      rw [detectTimes_options]
    · have hn0 : n = 0 := by omega
      subst hn0
      show mapLookup (markProxyDetected pm i none now).proxyUsage i = _
      rw [markProxyDetected_lookup pm i u now h]
      simp [h0]

/-- C5: after `n` consecutive `markDetected` calls with no intervening
`markUsed`, `cooldownUntil - now` equals `basePenalty` for `n = 1` and
`basePenalty * n` from the second call on, so it is non-decreasing in `n`
and, for every `n > 1`, strictly greater than for `n = 1` (for a positive
base penalty, the configured `cooldownPeriod`). -/
theorem c5_escalating_cooldown (pm : ProxyManager) (i : String) (u : ProxyUsage)
    (now : Int) (n : Nat)
    (h : mapLookup pm.proxyUsage i = some u)
    (h0 : u.consecutiveDetections = 0)
    (hbase : 0 < pm.options.cooldownPeriod)
    (hn : 1 ≤ n) :
    cooldownGap (detectTimes pm i now n) i now ≤
      cooldownGap (detectTimes pm i now (n + 1)) i now ∧
    (2 ≤ n →
      cooldownGap (detectTimes pm i now 1) i now <
        cooldownGap (detectTimes pm i now n) i now) := by
  have hgap : ∀ m, 1 ≤ m →
      cooldownGap (detectTimes pm i now m) i now =
        (if 2 ≤ m then pm.options.cooldownPeriod * (m : Int)
         else pm.options.cooldownPeriod) := by
    intro m hm
    unfold cooldownGap
    rw [detectTimes_lookup pm i u now h h0 m hm]
    simp
  rw [hgap n hn, hgap (n + 1) (by omega), hgap 1 (by decide)]
  constructor
  · by_cases h2 : 2 ≤ n
    · simp only [h2, if_true, show 2 ≤ n + 1 by omega]
      have hc : ((n : Int)) ≤ ((n + 1 : Nat) : Int) := by push_cast; omega
      exact mul_le_mul_of_nonneg_left hc (le_of_lt hbase)
    · have hn1 : n = 1 := by omega
      subst hn1
      simp only [show ¬ (2 ≤ 1) by decide, if_false, show 2 ≤ 1 + 1 by decide, if_true]
      push_cast
      nlinarith
  · intro h2
    simp only [show ¬ (2 ≤ 1) by decide, if_false, h2, if_true]
    have hc : (2 : Int) ≤ (n : Int) := by exact_mod_cast h2
    nlinarith

theorem c5_witness :
    mapLookup pmA.proxyUsage "p1" = some usage0 ∧
    usage0.consecutiveDetections = 0 ∧
    0 < pmA.options.cooldownPeriod ∧ 1 ≤ 2 ∧
    (cooldownGap (detectTimes pmA "p1" 1000 2) "p1" 1000 ≤
      cooldownGap (detectTimes pmA "p1" 1000 (2 + 1)) "p1" 1000 ∧
    (2 ≤ 2 →
      cooldownGap (detectTimes pmA "p1" 1000 1) "p1" 1000 <
        cooldownGap (detectTimes pmA "p1" 1000 2) "p1" 1000)) :=
  ⟨rfl, rfl, by decide, by decide,
    c5_escalating_cooldown pmA "p1" usage0 1000 2 rfl rfl (by decide) (by decide)⟩

/-! ### C3: a rank of exactly 0 is retried and never survives to the result -/

/-- `checkKeywordRank`'s computed rank is never 0: a scan that found nothing
is replaced by the sentinel 101, and a hit is `i + 1 ≥ 1`. -/
theorem computeRank_ne_zero (results : List SearchResult) (dom : String) :
    (computeRank results dom).1 ≠ 0 := by
  unfold computeRank
  split_ifs with hz
  · simp
  · exact hz

/-- The retry loop leaves a state with a filled result slot untouched. -/
theorem processJobLoop_result_some (maxRetries : Nat) (kw dom : String)
    (oracle : Nat → JobAttempt) (fuel : Nat) (s : JobState)
    (h : s.result.isSome = true) :
    processJobLoop maxRetries kw dom oracle fuel s = s := by
  cases fuel with
  | zero => rfl
  | succ fuel =>
    unfold processJobLoop
    rw [h]
    simp

/-- The catch block when the retry ceiling is reached: the terminal
`rank = null` result is stored together with the joined error history. -/
theorem jobErrorStep_final (maxRetries : Nat) (kw dom msg : String) (s : JobState)
    (h : maxRetries ≤ s.retries + 1) :
    jobErrorStep maxRetries kw dom msg s =
      { s with
        errors := s.errors ++ [msg]
        retries := s.retries + 1
        waits := s.waits ++ [5000]
        result := some { keyword := kw, domain := dom, rank := none, url := none,
                         error := some (String.intercalate " | " (s.errors ++ [msg])) } } := by
  unfold jobErrorStep
  rw [if_pos h]

/-- The catch block below the retry ceiling: error recorded, `retries`
bumped, result slot left empty. -/
theorem jobErrorStep_continue (maxRetries : Nat) (kw dom msg : String) (s : JobState)
    (h : ¬ maxRetries ≤ s.retries + 1) :
    jobErrorStep maxRetries kw dom msg s =
      { s with
        errors := s.errors ++ [msg]
        retries := s.retries + 1
        waits := s.waits ++ [5000] } := by
  unfold jobErrorStep
  rw [if_neg h]

/-- An executor outcome with rank exactly 0 is routed to the catch block
with the `Rank is 0` message (after recording the proxy id in use). -/
theorem processJobIter_rank_zero (maxRetries : Nat) (kw dom pid url : String)
    (s : JobState) :
    processJobIter maxRetries kw dom
        (JobAttempt.withProxy pid (Except.ok (0, url))) s =
      jobErrorStep maxRetries kw dom ("Rank is 0 for keyword \"" ++ kw ++ "\"")
        ({ s with usedProxyId := pid }) := by
  simp [processJobIter]

/-- Under an oracle that always produces rank 0, the loop runs the retry
counter up to the ceiling and terminates with the `rank = null` result. -/
theorem rankZeroLoop (maxRetries : Nat) (kw dom : String) (oracle : Nat → JobAttempt)
    (hor : ∀ k, ∃ pid url, oracle k = JobAttempt.withProxy pid (Except.ok (0, url))) :
    ∀ fuel s, s.result = none → s.retries < maxRetries → maxRetries ≤ s.retries + fuel →
      (processJobLoop maxRetries kw dom oracle fuel s).retries = maxRetries ∧
      ((processJobLoop maxRetries kw dom oracle fuel s).result.map (fun r => r.rank)) =
        some none := by
  intro fuel
  induction fuel with
  | zero =>
    intro s h1 h2 h3
    exact absurd (lt_of_lt_of_le h2 h3) (by omega)
  | succ fuel ih =>
    intro s h1 h2 h3
    unfold processJobLoop
    rw [h1]
    have hlt : ¬ maxRetries ≤ s.retries := by omega
    simp only [Option.isSome_none, Bool.false_eq_true, if_false, hlt]
    obtain ⟨pid, url, hk⟩ := hor s.retries
    rw [hk, processJobIter_rank_zero]
    by_cases hfin : maxRetries ≤ s.retries + 1
    · rw [jobErrorStep_final maxRetries kw dom _ ({ s with usedProxyId := pid }) hfin]
      rw [processJobLoop_result_some]
      · exact ⟨show s.retries + 1 = maxRetries by omega, rfl⟩
      · rfl
    · rw [jobErrorStep_continue maxRetries kw dom _ ({ s with usedProxyId := pid }) hfin]
      exact ih _ h1 (show s.retries + 1 < maxRetries by omega)
        (show maxRetries ≤ s.retries + 1 + fuel by omega)

/-- C3: for a job whose executor always yields a computed rank of exactly 0,
the orchestrator treats the 0 as a transient failure, retries until the
configured ceiling, and the final result exists with `rank = null` — never
`rank = 0`; separately, `checkKeywordRank` itself never computes 0: "not
found" is the distinct sentinel 101. -/
theorem c3_zero_rank_retried (maxRetries : Nat) (kw dom : String)
    (oracle : Nat → JobAttempt) (results : List SearchResult) (d2 : String)
    (hmr : 1 ≤ maxRetries)
    (hor : ∀ k, ∃ pid url, oracle k = JobAttempt.withProxy pid (Except.ok (0, url))) :
    (processJob maxRetries kw dom oracle).retries = maxRetries ∧
    ((processJob maxRetries kw dom oracle).result.map (fun r => r.rank)) = some none ∧
    (computeRank results d2).1 ≠ 0 ∧
    computeRank [] d2 = (101, "not found") := by
  have hrun := rankZeroLoop maxRetries kw dom oracle hor (maxRetries + 1)
    initialJobState rfl (by show 0 < maxRetries; omega)
    (by show maxRetries ≤ 0 + (maxRetries + 1); omega)
  exact ⟨hrun.1, hrun.2, computeRank_ne_zero results d2, rfl⟩

theorem c3_witness :
    1 ≤ 3 ∧
    ((processJob 3 "kw" "dom"
        (fun _ => JobAttempt.withProxy "p1" (Except.ok (0, "u")))).retries = 3 ∧
    ((processJob 3 "kw" "dom"
        (fun _ => JobAttempt.withProxy "p1" (Except.ok (0, "u")))).result.map
      (fun r => r.rank)) = some none ∧
    (computeRank [] "x").1 ≠ 0 ∧
    computeRank [] "x" = (101, "not found")) :=
  ⟨by decide,
    c3_zero_rank_retried 3 "kw" "dom"
      (fun _ => JobAttempt.withProxy "p1" (Except.ok (0, "u"))) [] "x"
      (by decide) (fun _ => ⟨"p1", "u", rfl⟩)⟩

/-! ### C4: pool exhaustion is counted as an attempt -/

/-- C4 (counterexample): with `maxRetries = 2` and a pool that always
reports `null` with no wait hint, the orchestrator performs the two default
5000 ms waits but counts each as an attempt: the loop exits with
`retries = 2` (not 0, as "loop without counting as an attempt" requires) and
with no result at all — pool exhaustion alone exhausted the job. -/
theorem c4_counterexample :
    (processJob 2 "k" "d" (fun _ => JobAttempt.noProxy none)).retries = 2 ∧
    (processJob 2 "k" "d" (fun _ => JobAttempt.noProxy none)).retries ≠ 0 ∧
    (processJob 2 "k" "d" (fun _ => JobAttempt.noProxy none)).result = none ∧
    (processJob 2 "k" "d" (fun _ => JobAttempt.noProxy none)).waits =
      [5000, 5000] := by decide

/-- The retry loop under a permanently exhausted pool with no wait hint:
every iteration sleeps the 5000 ms default, increments `retries`, and the
loop ends (without any result) once `retries` reaches the ceiling. -/
theorem noProxyLoop (maxRetries : Nat) (kw dom : String) :
    ∀ fuel s, s.result = none → maxRetries ≤ s.retries + fuel →
      processJobLoop maxRetries kw dom (fun _ => JobAttempt.noProxy none) fuel s =
        { s with
          retries := s.retries + (maxRetries - s.retries)
          waits := s.waits ++ List.replicate (maxRetries - s.retries) 5000 } := by
  intro fuel
  induction fuel with
  | zero =>
    intro s h1 h2
    have hz : maxRetries - s.retries = 0 := by omega
    rw [hz]
    simp [processJobLoop]
  | succ fuel ih =>
    intro s h1 h2
    unfold processJobLoop
    rw [h1]
    simp only [Option.isSome_none, Bool.false_eq_true, if_false]
    by_cases hle : maxRetries ≤ s.retries
    · rw [if_pos hle]
      have hz : maxRetries - s.retries = 0 := by omega
      rw [hz]
      simp
      rw [← h1]
    · rw [if_neg hle]
      have hstep : processJobIter maxRetries kw dom (JobAttempt.noProxy none) s =
          { s with waits := s.waits ++ [5000], retries := s.retries + 1 } := by
        simp [processJobIter, poolWaitTime]
      rw [hstep]
      rw [ih ({ s with waits := s.waits ++ [5000], retries := s.retries + 1 })
        h1 (show maxRetries ≤ s.retries + 1 + fuel by omega)]
      have hr : s.retries + 1 + (maxRetries - (s.retries + 1)) =
          s.retries + (maxRetries - s.retries) := by omega
      have hw : (s.waits ++ [5000]) ++ List.replicate (maxRetries - (s.retries + 1)) 5000 =
          s.waits ++ List.replicate (maxRetries - s.retries) 5000 := by
        rw [List.append_assoc]
        congr 1
        have hs : maxRetries - s.retries = (maxRetries - (s.retries + 1)) + 1 := by omega
        rw [hs, List.replicate_succ]
        rfl
      rw [hr, hw]
      rw [← h1]

/-- C4 (amended): when `next()` returns `null` the orchestrator sleeps the
`nextAvailableIn` hint — with the falsy values `null` and `0` replaced by
the bounded 5000 ms default — and loops, but it does count the wait as an
attempt: `retries` is incremented on every such iteration, and a job whose
every iteration finds the pool exhausted ends after `maxRetries` iterations
with `retries = maxRetries` and no result, so pool exhaustion does surface
as the job's failure. -/
theorem c4_amended (maxRetries : Nat) (kw dom : String) :
    (∀ (s : JobState) (hint : Option Int),
      processJobIter maxRetries kw dom (JobAttempt.noProxy hint) s =
        { s with waits := s.waits ++ [poolWaitTime hint], retries := s.retries + 1 }) ∧
    poolWaitTime none = 5000 ∧
    (processJob maxRetries kw dom (fun _ => JobAttempt.noProxy none)).retries =
      maxRetries ∧
    (processJob maxRetries kw dom (fun _ => JobAttempt.noProxy none)).result = none ∧
    (processJob maxRetries kw dom (fun _ => JobAttempt.noProxy none)).waits =
      List.replicate maxRetries 5000 ∧
    (processJob maxRetries kw dom (fun _ => JobAttempt.noProxy none)).errors = [] := by
  refine ⟨?_, rfl, ?_⟩
  · intro s hint
    simp [processJobIter]
  · unfold processJob
    rw [noProxyLoop maxRetries kw dom (maxRetries + 1) initialJobState rfl
      (show maxRetries ≤ 0 + (maxRetries + 1) by omega)]
    refine ⟨by show 0 + (maxRetries - 0) = maxRetries; omega, rfl, ?_, rfl⟩
    show ([] : List Int) ++ List.replicate (maxRetries - 0) 5000 =
      List.replicate maxRetries 5000
    simp

/-! ### C10 and the rate-budget invariant of `next()` -/

/-- Whatever the strategy, the selected proxy carries the id of some member
of the available list. -/
theorem selectProxy_id_mem (pm : ProxyManager) (m1 : List (String × ProxyUsage))
    (a0 : Proxy) (rest : List Proxy) :
    (selectProxy pm m1 (a0 :: rest) a0).1.id ∈ (a0 :: rest).map (fun q => q.id) := by
  unfold selectProxy
  split_ifs with hs
  · cases h : leastUsedPick m1 (a0 :: rest) with
    | none => simp [leastUsedPick] at h
    | some q =>
      exact List.mem_map_of_mem (fun q => q.id) (leastUsedPick_mem m1 _ q h)
  · cases h : roundRobinPick pm.proxies ((a0 :: rest).map (fun p => p.id))
        pm.currentIndex pm.proxies.length with
    | none =>
      exact List.mem_map_of_mem (fun q => q.id) (List.mem_cons_self a0 rest)
    | some pr =>
      exact roundRobinPick_id_mem pm.proxies _ pm.proxies.length pm.currentIndex
        pr.1 pr.2 h

/-- Reservation of a different id leaves a usage entry unread. -/
theorem reserveProxy_lookup_ne (m1 : List (String × ProxyUsage)) (i j : String)
    (now : Int) (h : j ≠ i) :
    mapLookup (reserveProxy m1 i now) j = mapLookup m1 j := by
  unfold reserveProxy
  split
  · exact mapLookup_mapUpdate_ne m1 i j _ h
  · rfl

/-- Reservation preserves the budget bound as long as the reserved entry was
strictly under it. -/
theorem reserveProxy_count_bound (m1 : List (String × ProxyUsage)) (i : String)
    (now : Int) (B : Nat)
    (hm : ∀ e ∈ m1, e.2.usageCount ≤ B)
    (hsel : ∀ u1, mapLookup m1 i = some u1 → u1.usageCount < B) :
    ∀ e ∈ reserveProxy m1 i now, e.2.usageCount ≤ B := by
  unfold reserveProxy
  split
  · rename_i u heq
    intro e he
    rcases mapUpdate_mem _ _ _ e he with h | h
    · rw [h]
      show u.usageCount + 1 ≤ B
      have := hsel u heq
      omega
    · exact hm e h
  · exact hm

theorem getNextProxyAux_nil (pm : ProxyManager) (now : Int)
    (m1 : List (String × ProxyUsage)) :
    getNextProxyAux pm now ([], m1) =
      ({ proxy := none, nextAvailableIn := minPositiveCooldown m1 now },
       { pm with proxyUsage := m1 }) := rfl

theorem getNextProxyAux_cons (pm : ProxyManager) (now : Int)
    (m1 : List (String × ProxyUsage)) (a0 : Proxy) (rest : List Proxy) :
    getNextProxyAux pm now (a0 :: rest, m1) =
      ({ proxy := some (selectProxy pm m1 (a0 :: rest) a0).1, nextAvailableIn := none },
       { pm with
           proxyUsage := reserveProxy m1 (selectProxy pm m1 (a0 :: rest) a0).1.id now
           currentIndex := (selectProxy pm m1 (a0 :: rest) a0).2 }) := rfl

/-- C10: an active resource that is out of cooldown but sits at (or past)
its per-window budget with `lastUsedAt` still inside the window has
`cooldownUntil := now + cooldownPeriod` written by `next()`'s eligibility
check alone — no detection involved — and is not the proxy returned by that
call: rate exhaustion silently imposes the full detection-cooldown
exclusion. -/
theorem c10_budget_exhaustion_cooldown (pm : ProxyManager) (now : Int)
    (p : Proxy) (u : ProxyUsage)
    (hmem : p ∈ pm.proxies)
    (hnodup : (pm.proxies.map (fun q => q.id)).Nodup)
    (hact : p.isActive = true)
    (hu : mapLookup pm.proxyUsage p.id = some u)
    (hcd : ¬ now < u.cooldownUntil)
    (hwin : now - 60000 < u.lastUsed)
    (hbud : pm.options.requestsPerMinute ≤ u.usageCount) :
    ((mapLookup (getNextProxy pm now).2.proxyUsage p.id).map
      (fun v => v.cooldownUntil)) = some (now + pm.options.cooldownPeriod) ∧
    (getNextProxy pm now).1.proxy ≠ some p := by
  obtain ⟨hlook, havoid⟩ := filterAvailable_over_budget pm.options now pm.proxies
    pm.proxyUsage p u hmem hnodup hact hu hcd hwin hbud
  unfold getNextProxy
  have hsplit : filterAvailable pm.options now pm.proxies pm.proxyUsage =
      ((filterAvailable pm.options now pm.proxies pm.proxyUsage).1,
       (filterAvailable pm.options now pm.proxies pm.proxyUsage).2) := rfl
  rw [hsplit]
  cases hav : (filterAvailable pm.options now pm.proxies pm.proxyUsage).1 with
  | nil =>
    rw [getNextProxyAux_nil]
    constructor
    · rw [hlook]
      rfl
    · simp
  | cons a0 rest =>
    rw [getNextProxyAux_cons]
    have hidne : (selectProxy pm (filterAvailable pm.options now pm.proxies
        pm.proxyUsage).2 (a0 :: rest) a0).1.id ≠ p.id := by
      obtain ⟨q, hq, hqe⟩ := List.mem_map.mp
        (selectProxy_id_mem pm ((filterAvailable pm.options now pm.proxies
          pm.proxyUsage).2) a0 rest)
      rw [← hqe]
      exact havoid q (hav ▸ hq)
    constructor
    · show ((mapLookup (reserveProxy (filterAvailable pm.options now pm.proxies
        pm.proxyUsage).2 (selectProxy pm (filterAvailable pm.options now
        pm.proxies pm.proxyUsage).2 (a0 :: rest) a0).1.id now) p.id).map
        (fun v => v.cooldownUntil)) = some (now + pm.options.cooldownPeriod)
      rw [reserveProxy_lookup_ne _ _ _ _ (fun hpe => hidne hpe.symm)]
      rw [hlook]
      rfl
    · intro hcontra
      rw [Option.some.injEq] at hcontra
      exact hidne (by rw [hcontra])

theorem c10_witness :
    pA ∈ pmTired.proxies ∧
    (pmTired.proxies.map (fun q => q.id)).Nodup ∧
    pA.isActive = true ∧
    mapLookup pmTired.proxyUsage pA.id = some usageTired ∧
    ¬ (100001 : Int) < usageTired.cooldownUntil ∧
    (100001 : Int) - 60000 < usageTired.lastUsed ∧
    pmTired.options.requestsPerMinute ≤ usageTired.usageCount ∧
    (((mapLookup (getNextProxy pmTired 100001).2.proxyUsage pA.id).map
      (fun v => v.cooldownUntil)) = some (100001 + pmTired.options.cooldownPeriod) ∧
    (getNextProxy pmTired 100001).1.proxy ≠ some pA) :=
  ⟨by decide, by decide, rfl, rfl, by decide, by decide, by decide,
    c10_budget_exhaustion_cooldown pmTired 100001 pA usageTired (by decide)
      (by decide) rfl rfl (by decide) (by decide) (by decide)⟩

/-- C2 (amended): as long as only `next()` touches the counters (no
`markUsed`), the stored `usageCountInWindow` of every resource stays within
`requestsPerWindow`: the eligibility filter only preserves or zeroes
counters, and the eager reservation increments only a counter it has just
checked to be strictly under the budget (ids assumed unique, budget at
least 1).  The options and proxies are untouched, so the bound is preserved
across any sequence of `next()` calls. -/
theorem c2_amended (pm : ProxyManager) (now : Int)
    (hnodup : (pm.proxies.map (fun q => q.id)).Nodup)
    (hlim : 1 ≤ pm.options.requestsPerMinute)
    (hinv : ∀ e ∈ pm.proxyUsage, e.2.usageCount ≤ pm.options.requestsPerMinute) :
    (getNextProxy pm now).2.options = pm.options ∧
    (getNextProxy pm now).2.proxies = pm.proxies ∧
    ∀ e ∈ (getNextProxy pm now).2.proxyUsage,
      e.2.usageCount ≤ pm.options.requestsPerMinute := by
  have hbound := filterAvailable_count_bound pm.options now pm.proxies pm.proxyUsage
    pm.options.requestsPerMinute hinv
  unfold getNextProxy
  have hsplit : filterAvailable pm.options now pm.proxies pm.proxyUsage =
      ((filterAvailable pm.options now pm.proxies pm.proxyUsage).1,
       (filterAvailable pm.options now pm.proxies pm.proxyUsage).2) := rfl
  rw [hsplit]
  cases hav : (filterAvailable pm.options now pm.proxies pm.proxyUsage).1 with
  | nil =>
    rw [getNextProxyAux_nil]
    exact ⟨rfl, rfl, hbound⟩
  | cons a0 rest =>
    rw [getNextProxyAux_cons]
    refine ⟨rfl, rfl, ?_⟩
    show ∀ e ∈ reserveProxy (filterAvailable pm.options now pm.proxies
      pm.proxyUsage).2 (selectProxy pm (filterAvailable pm.options now
      pm.proxies pm.proxyUsage).2 (a0 :: rest) a0).1.id now,
      e.2.usageCount ≤ pm.options.requestsPerMinute
    refine reserveProxy_count_bound _ _ _ _ hbound ?_
    intro u1 hsel
    obtain ⟨q, hq, hqe⟩ := List.mem_map.mp
      (selectProxy_id_mem pm ((filterAvailable pm.options now pm.proxies
        pm.proxyUsage).2) a0 rest)
    refine filterAvailable_avail_budget pm.options now pm.proxies pm.proxyUsage
      q u1 hnodup hlim (hav ▸ hq) ?_
    rw [hqe]
    exact hsel

theorem c2_amended_witness :
    (pmA.proxies.map (fun q => q.id)).Nodup ∧
    1 ≤ pmA.options.requestsPerMinute ∧
    (∀ e ∈ pmA.proxyUsage, e.2.usageCount ≤ pmA.options.requestsPerMinute) ∧
    ((getNextProxy pmA 100000).2.options = pmA.options ∧
    (getNextProxy pmA 100000).2.proxies = pmA.proxies ∧
    ∀ e ∈ (getNextProxy pmA 100000).2.proxyUsage,
      e.2.usageCount ≤ pmA.options.requestsPerMinute) :=
  ⟨by decide, by decide, by decide,
    c2_amended pmA 100000 (by decide) (by decide) (by decide)⟩

end SerpTest
